import Mathlib

/-!
Verification of the DeyFinder job-link synthesis and normalization pipeline.

This file shallowly embeds the job synthesis engine (`generateJobsWithGemini`
and its helpers from the library module) in Lean 4.  JavaScript strings are
modelled as Lean `String`s (reasoned about through their `List Char` data);
JS string primitives (`trim`, `toLowerCase`, `includes`, `startsWith`,
`slice`, `split`, template-literal number formatting) are modelled by the
`js*` helpers below, for ASCII inputs (all concrete strings in the source are
ASCII).  32-bit signed integer arithmetic is modelled on `Int` with explicit
wrapping.  The asynchronous AI call is modelled by an explicit outcome
parameter (the engine never depends on its internals), and `Date.now()` by an
explicit `now : Nat` parameter.  Exceptions are modelled with `Except`.
-/

set_option maxRecDepth 100000

/-- JS character-class `\w` (word character): `[A-Za-z0-9_]`. -/
def isWordChar (c : Char) : Bool :=
  ('a' ≤ c && c ≤ 'z') || ('A' ≤ c && c ≤ 'Z') || ('0' ≤ c && c ≤ '9') || c = '_'

/-- Whitespace trimmed by JS `String.prototype.trim` (ASCII fragment). -/
def jsWhitespace (c : Char) : Bool :=
  c = ' ' || c = '\t' || c = '\n' || c = '\r' || c = '\x0b' || c = '\x0c'

/-- JS `String.prototype.trim` (ASCII whitespace). -/
def jsTrim (s : String) : String :=
  String.mk (((s.data.dropWhile jsWhitespace).reverse.dropWhile jsWhitespace).reverse)

/-- JS `String.prototype.toLowerCase` (ASCII letters). -/
def jsToLower (s : String) : String :=
  String.mk (s.data.map Char.toLower)

/-- `pre` is a leading segment of `l` (model of JS `startsWith` on char lists). -/
def listIsPre : List Char → List Char → Bool
  | [], _ => true
  | _ :: _, [] => false
  | a :: as, b :: bs => a = b && listIsPre as bs

/-- JS `s.startsWith(pre)`. -/
def jsStartsWith (s pre : String) : Bool :=
  listIsPre pre.data s.data

/-- `sub` occurs contiguously inside `l` (model of JS `includes` on char lists). -/
def listContainsSub (l sub : List Char) : Bool :=
  match l with
  | [] => sub.isEmpty
  | _ :: t => listIsPre sub l || listContainsSub t sub

/-- JS `s.includes(sub)`. -/
def containsSubstr (s sub : String) : Bool :=
  listContainsSub s.data sub.data

/-- JS `s.slice(start, stop)` for in-range ascending indices. -/
def jsSlice (s : String) (start stop : Nat) : String :=
  String.mk ((s.data.drop start).take (stop - start))

/-- JS `s.indexOf(c)` for a single character, as an `Option Nat`
(`none` models `-1`). -/
def jsIndexOfChar (s : String) (c : Char) : Option Nat :=
  s.data.findIdx? (fun x => x = c)

/-- JS `s.lastIndexOf(c)` for a single character, as an `Option Nat`
(`none` models `-1`). -/
def jsLastIndexOfChar (s : String) (c : Char) : Option Nat :=
  (s.data.reverse.findIdx? (fun x => x = c)).map (fun i => s.data.length - 1 - i)

/-- Splits a character list at every separator satisfying `p`, keeping empty
segments — the behaviour of JS `split` with a single-character-class regex. -/
def splitOnPred (p : Char → Bool) : List Char → List (List Char)
  | [] => [[]]
  | c :: t =>
    let r := splitOnPred p t
    if p c then [] :: r
    else
      match r with
      | [] => [[c]]
      | h :: t' => (c :: h) :: t'

/-- JS `s.split(sep)` for a single-character separator. -/
def jsSplitChar (s : String) (sep : Char) : List String :=
  (splitOnPred (fun c => c = sep) s.data).map String.mk

/-- Decimal digit character. -/
def digitChar (n : Nat) : Char := Char.ofNat (48 + n % 10)

/-- Fuel-driven decimal printer (most significant digit first). -/
def natToStringAux : Nat → Nat → List Char
  | 0, _ => []
  | fuel + 1, n => if n < 10 then [digitChar n] else natToStringAux fuel (n / 10) ++ [digitChar (n % 10)]

/-- Decimal rendering of a natural number, as produced by a JS template
literal `${n}` for a non-negative integer. -/
def natToString (n : Nat) : String := String.mk (natToStringAux (n + 1) n)

/-- Truthiness of an optional JS string: present and non-empty. -/
def strTruthy (o : Option String) : Bool :=
  match o with
  | some s => s ≠ ""
  | none => false

-- sanity checks of the string helpers
example : jsTrim "  a b  " = "a b" := by decide
example : jsToLower "AbC" = "abc" := by decide
example : jsStartsWith "https://x" "https://" = true := by decide
example : containsSubstr "hello world" "lo w" = true := by decide
example : containsSubstr "hello" "xyz" = false := by decide
example : jsSlice "abcdef" 1 4 = "bcd" := by decide
example : jsIndexOfChar "ab\x7bcd" (Char.ofNat 123) = some 2 := by decide
example : jsLastIndexOfChar "a\x7db\x7dc" (Char.ofNat 125) = some 3 := by decide
example : jsSplitChar "a.b..c" '.' = ["a", "b", "", "c"] := by decide
example : natToString 0 = "0" := by decide
example : natToString 1204 = "1204" := by decide

/-! ### Deterministic 32-bit hash (`hashString`) -/

/-- Wrap an integer into the signed 32-bit range (JS `| 0`). -/
def toInt32 (n : Int) : Int := (n + 2 ^ 31) % 2 ^ 32 - 2 ^ 31

/-- `hashString` from the source: rolling hash `h = (h << 5) - h + charCode`,
wrapped to a signed 32-bit integer at every step. -/
def hashString (value : String) : Int :=
  value.data.foldl (fun hash c => toInt32 (toInt32 (hash * 32) - hash + (c.toNat : Int))) 0

/-! ### Data model -/

/-- `JobQuery` from the source. -/
structure JobQuery where
  title : String
  query : String
deriving DecidableEq, Inhabited

/-- `JobPosting` from the source (optional fields as `Option`). -/
structure JobPosting where
  id : String
  title : String
  company : Option String
  location : Option String
  salary : Option String
  description : Option String
  url : String
  source : Option String
  postedAt : Option String
deriving DecidableEq, Inhabited

/-- The option object taken by every provider's `buildUrl`. -/
structure BuildUrlOptions where
  query : JobQuery
  company : Option String
  location : Option String
  remote : Bool

/-- `SearchProvider` from the source. -/
structure SearchProvider where
  name : String
  hosts : List String
  buildUrl : BuildUrlOptions → String

/-! ### `URLSearchParams` model (application/x-www-form-urlencoded) -/

/-- UTF-8 bytes of a character. -/
def utf8Bytes (c : Char) : List Nat :=
  let n := c.toNat
  if n < 0x80 then [n]
  else if n < 0x800 then [0xC0 + n / 0x40, 0x80 + n % 0x40]
  else if n < 0x10000 then [0xE0 + n / 0x1000, 0x80 + (n / 0x40) % 0x40, 0x80 + n % 0x40]
  else [0xF0 + n / 0x40000, 0x80 + (n / 0x1000) % 0x40, 0x80 + (n / 0x40) % 0x40, 0x80 + n % 0x40]

/-- Upper-case hexadecimal digit. -/
def hexDigitChar (n : Nat) : Char :=
  if n % 16 < 10 then Char.ofNat (48 + n % 16) else Char.ofNat (55 + n % 16)

/-- Characters `URLSearchParams` serialises verbatim. -/
def isFormUnreserved (c : Char) : Bool :=
  ('a' ≤ c && c ≤ 'z') || ('A' ≤ c && c ≤ 'Z') || ('0' ≤ c && c ≤ '9') ||
    c = '*' || c = '-' || c = '.' || c = '_'

/-- Form-urlencoded escaping of a single string (space becomes `+`, other
reserved characters become percent-escaped UTF-8 bytes). -/
def formEncode (s : String) : String :=
  String.mk (s.data.flatMap (fun c =>
    if isFormUnreserved c then [c]
    else if c = ' ' then ['+']
    else (utf8Bytes c).flatMap (fun b => ['%', hexDigitChar (b / 16), hexDigitChar (b % 16)])))

/-- `URLSearchParams.set`: replace the value of an existing key (dropping any
later duplicates) or append a fresh pair. -/
def paramsSet : List (String × String) → String → String → List (String × String)
  | [], key, value => [(key, value)]
  | (k, v) :: rest, key, value =>
    if k = key then (key, value) :: rest.filter (fun p => p.1 ≠ key)
    else (k, v) :: paramsSet rest key value

/-- `URLSearchParams.toString`. -/
def paramsToString (params : List (String × String)) : String :=
  String.intercalate "&" (params.map (fun p => formEncode p.1 ++ "=" ++ formEncode p.2))

/-! ### The provider registry (`SEARCH_PROVIDERS`) -/

/-- The keyword text `[company ? `company title` : query, extraWord].filter(Boolean).join(' ')`
shared by the provider builders (`extraWord` models the `remote ? word : null`
entry; `none` when the builder has no such entry). -/
def keywordText (opts : BuildUrlOptions) (extraWord : Option String) : String :=
  let first : String :=
    if strTruthy opts.company then opts.company.getD "" ++ " " ++ opts.query.title
    else opts.query.query
  String.intercalate " " ((([some first, extraWord].filterMap id).filter (fun s => s ≠ "")))

/-- `location?.trim()` is truthy. -/
def locTrimTruthy (location : Option String) : Bool :=
  strTruthy (location.map jsTrim)

/-- `SEARCH_PROVIDERS` from the source: the five job-board integrations and
their deterministic URL builders. -/
def SEARCH_PROVIDERS : List SearchProvider := [
  { name := "LinkedIn search",
    hosts := ["linkedin.com"],
    buildUrl := fun opts =>
      let keywords := keywordText opts (if opts.remote then some "remote" else none)
      let p := if keywords ≠ "" then paramsSet [] "keywords" keywords else []
      let p := if !opts.remote && locTrimTruthy opts.location then
          paramsSet p "location" (jsTrim (opts.location.getD "")) else p
      "https://www.linkedin.com/jobs/search/?" ++ paramsToString p },
  { name := "JobStreet search",
    hosts := ["jobstreet.com"],
    buildUrl := fun opts =>
      let keywords := keywordText opts (if opts.remote then some "work from home" else none)
      let p := if keywords ≠ "" then paramsSet [] "keywords" keywords else []
      let p := paramsSet p "page" "1"
      let p := if !opts.remote && locTrimTruthy opts.location then
          paramsSet p "locations" (jsTrim (opts.location.getD "")) else p
      "https://www.jobstreet.com/search/jobs?" ++ paramsToString p },
  { name := "Glassdoor search",
    hosts := ["glassdoor.com"],
    buildUrl := fun opts =>
      let keyword := keywordText opts (if opts.remote then some "remote" else none)
      let p := if keyword ≠ "" then paramsSet [] "sc.keyword" keyword else []
      let p := if !opts.remote && locTrimTruthy opts.location then
          paramsSet (paramsSet p "locT" "C") "locName" (jsTrim (opts.location.getD ""))
        else paramsSet (paramsSet p "locT" "N") "locId" "1"
      let p := paramsSet p "p" "1"
      "https://www.glassdoor.com/Job/jobs.htm?" ++ paramsToString p },
  { name := "Prosple search",
    hosts := ["prosple.com"],
    buildUrl := fun opts =>
      let keywords := keywordText opts none
      let p := if keywords ≠ "" then paramsSet [] "keywords" keywords else []
      let p := if opts.remote then paramsSet p "location" "Remote"
        else if locTrimTruthy opts.location then
          paramsSet p "location" (jsTrim (opts.location.getD "")) else p
      "https://prosple.com/search-jobs?" ++ paramsToString p },
  { name := "Indeed search",
    hosts := ["indeed.com"],
    buildUrl := fun opts =>
      let keywords := keywordText opts (if opts.remote then some "remote" else none)
      let p := if keywords ≠ "" then paramsSet [] "q" keywords else []
      let p := if !opts.remote && locTrimTruthy opts.location then
          paramsSet p "l" (jsTrim (opts.location.getD "")) else p
      "https://www.indeed.com/jobs?" ++ paramsToString p }]

/-- `AGGREGATOR_HOSTS` from the source (a `Set` in JS; order-preserving list
here — only membership is ever used). -/
def AGGREGATOR_HOSTS : List String :=
  SEARCH_PROVIDERS.flatMap (fun provider => provider.hosts)

/-- `findProviderForHost` from the source. -/
def findProviderForHost (hostname : String) : Option SearchProvider :=
  let lowerHost := jsToLower hostname
  SEARCH_PROVIDERS.find? (fun provider =>
    provider.hosts.any (fun host => containsSubstr lowerHost host))

/-- `selectSearchProvider` from the source; `none` models the throw on an
empty provider registry (never reached: the registry has five entries). -/
def selectSearchProvider (indexSeed : Int) : Option SearchProvider :=
  if SEARCH_PROVIDERS.length = 0 then none
  else SEARCH_PROVIDERS[indexSeed.natAbs % SEARCH_PROVIDERS.length]?

/-- The `{url, source}` pair produced by `buildSearchLink`. -/
structure LinkResult where
  url : String
  source : String
deriving DecidableEq, Inhabited

/-- `buildSearchLink` from the source (the `none` arm is unreachable since the
provider registry is non-empty). -/
def buildSearchLink (query : JobQuery) (company : Option String)
    (location : Option String) (remote : Bool) (seed : Int) : LinkResult :=
  match selectSearchProvider seed with
  | some provider =>
    { url := provider.buildUrl { query := query, company := company, location := location, remote := remote },
      source := provider.name }
  | none => { url := "", source := "" }

example :
    (buildSearchLink { title := "Dev", query := "dev jobs" } (some "Canva") (some " Berlin ") false 6).url =
      "https://www.jobstreet.com/search/jobs?keywords=Canva+Dev&page=1&locations=Berlin" := by decide
example : (selectSearchProvider (-1)).map SearchProvider.name = some "JobStreet search" := by decide

/-! ### URL parsing model -/

/-- Hostname and pathname of a parsed URL (the only parts the source reads). -/
structure UrlParts where
  hostname : String
  pathname : String
deriving DecidableEq

/-- First index at which `sub` occurs in a character list. -/
def idxOfSub (sub : List Char) : List Char → Option Nat
  | [] => if sub.isEmpty then some 0 else none
  | c :: t => if listIsPre sub (c :: t) then some 0 else (idxOfSub sub t).map (fun i => i + 1)

/-- Model of `new URL(link)` restricted to what the source consumes: requires
`scheme://authority`; the authority up to `/`, `?` or `#` yields the hostname
(user-info and port stripped); the path (or `/`) yields the pathname.
`none` models the `TypeError` thrown on input this shape cannot match.
(JS lower-cases the hostname itself; every consumer in the source lower-cases
it again, so the raw spelling is kept here.) -/
def parseUrl (link : String) : Option UrlParts :=
  match idxOfSub "://".data link.data with
  | none => none
  | some i =>
    let scheme := link.data.take i
    if scheme.isEmpty ||
        !scheme.all (fun c => ('a' ≤ c && c ≤ 'z') || ('A' ≤ c && c ≤ 'Z')) then none
    else
      let rest := link.data.drop (i + 3)
      let authority := rest.takeWhile (fun c => c ≠ '/' && c ≠ '?' && c ≠ '#')
      let afterAuthority := rest.drop authority.length
      let hostport :=
        match authority.reverse.findIdx? (fun c => c = '@') with
        | some j => authority.drop (authority.length - j)
        | none => authority
      let hostname := hostport.takeWhile (fun c => c ≠ ':')
      if hostname.isEmpty then none
      else
        let pathname :=
          match afterAuthority with
          | '/' :: _ => afterAuthority.takeWhile (fun c => c ≠ '?' && c ≠ '#')
          | _ => ['/']
        some { hostname := String.mk hostname, pathname := String.mk pathname }

/-! ### Company-name heuristics -/

/-- `toTitleCase` from the source: split on runs of `-`, `_` or whitespace,
drop empty segments, capitalise each segment's first character, join with
spaces. -/
def toTitleCase (slug : String) : String :=
  String.intercalate " "
    ((((splitOnPred (fun c => c = '-' || c = '_' || jsWhitespace c) slug.data).map String.mk).filter
        (fun segment => segment ≠ "")).map (fun segment =>
      match segment.data with
      | [] => ""
      | c :: t => String.mk (c.toUpper :: t)))

/-- `slugify` from the source: lower-case, then delete every character that is
not a lower-case letter or digit. -/
def slugify (value : String) : String :=
  String.mk ((jsToLower value).data.filter (fun c => ('a' ≤ c && c ≤ 'z') || ('0' ≤ c && c ≤ '9')))

/-- The fixed vague-phrase list from `isGenericCompanyName`. -/
def GENERIC_COMPANY_PHRASES : List String := [
  "various companies", "various employers",
  "multiple companies", "multiple employers",
  "several companies", "several employers",
  "numerous companies", "numerous employers",
  "diverse companies", "diverse employers",
  "leading company", "leading employer",
  "top company", "top employer",
  "major company", "major employer",
  "global company", "global employer",
  "confidential company", "confidential employer",
  "stealth company", "stealth employer"]

/-- Alternatives of the placeholder regex
`\b(n/a|na|tbd|tba|unknown|unspecified|not provided|not specified)\b`. -/
def PLACEHOLDER_WORD_TOKENS : List String :=
  ["n/a", "na", "tbd", "tba", "unknown", "unspecified", "not provided", "not specified"]

/-- `tok` occurs at the head of `s`, with a `\b` word boundary on each side
(`prev` is the character just before `s`, if any).  Faithful for tokens that
begin and end with word characters — true of every placeholder token. -/
def tokenAtHead (tok : List Char) (prev : Option Char) (s : List Char) : Bool :=
  (match prev with | none => true | some c => !isWordChar c) &&
  listIsPre tok s &&
  (match s.drop tok.length with | [] => true | c :: _ => !isWordChar c)

/-- `tok` occurs somewhere in the list with word boundaries on both sides. -/
def hasBoundedToken (tok : List Char) : Option Char → List Char → Bool
  | prev, [] => tokenAtHead tok prev []
  | prev, c :: t => tokenAtHead tok prev (c :: t) || hasBoundedToken tok (some c) t

/-- `isGenericCompanyName` from the source. -/
def isGenericCompanyName (name : String) : Bool :=
  let normalised := jsToLower (jsTrim name)
  if normalised = "" then true
  else if normalised.length ≤ 2 then true
  else if GENERIC_COMPANY_PHRASES.any (fun phrase => containsSubstr normalised phrase) then true
  else if PLACEHOLDER_WORD_TOKENS.any (fun tok => hasBoundedToken tok.data none normalised.data) then
    true
  else if normalised = "company" || normalised = "employer" || normalised = "organisation" ||
      normalised = "organization" then true
  else false

/-- The `blockedRoots` set from `deriveCompanyFromLink`. -/
def BLOCKED_ROOTS : List String :=
  ["greenhouse", "lever", "ashbyhq", "wellfound", "linkedin", "indeed", "ziprecruiter",
   "glassdoor", "workable", "smartrecruiters", "jobvite", "myworkdayjobs", "jobs"]

/-- The `wellfound.com` extraction: the path segment following a `company`
segment, when present. -/
def wellfoundCompany (pathSegments : List String) : Option String :=
  match pathSegments.findIdx? (fun segment => segment = "company") with
  | some companyIndex =>
    let next := pathSegments.getD (companyIndex + 1) ""
    if next ≠ "" then some (toTitleCase next) else none
  | none => none

/-- The final part of `deriveCompanyFromLink`: generic domain-root extraction
guarded by the aggregator-host and blocked-root checks. -/
def deriveFromDomainRoot (host : String) : Option String :=
  if AGGREGATOR_HOSTS.any (fun aggregatorHost => containsSubstr host aggregatorHost) ||
      containsSubstr host "ziprecruiter.com" then none
  else
    let trimmedHost := if jsStartsWith host "www." then String.mk (host.data.drop 4) else host
    let hostParts := jsSplitChar trimmedHost '.'
    let domainRoot :=
      if hostParts.length > 2 then hostParts.getD (hostParts.length - 2) ""
      else hostParts.getD 0 ""
    if BLOCKED_ROOTS.any (fun root => root = domainRoot) then none
    else if domainRoot ≠ "" then some (toTitleCase domainRoot) else none

/-- `deriveCompanyFromLink` from the source.  Branches that return in the JS
are `if ... then` arms; branches whose inner test can fail fall through to the
later checks, as in the source. -/
def deriveCompanyFromLink (link : String) : Option String :=
  match parseUrl link with
  | none => none
  | some url =>
    let host := jsToLower url.hostname
    let pathSegments := (jsSplitChar url.pathname '/').filter (fun segment => segment ≠ "")
    if containsSubstr host "greenhouse.io" then pathSegments.head?.map toTitleCase
    else if containsSubstr host "lever.co" then pathSegments.head?.map toTitleCase
    else if containsSubstr host "ashbyhq.com" then pathSegments.head?.map toTitleCase
    else if containsSubstr host "workable.com" &&
        (let subdomain := (jsSplitChar host '.').getD 0 ""
         subdomain ≠ "" && subdomain ≠ "www" && subdomain ≠ "jobs") then
      some (toTitleCase ((jsSplitChar host '.').getD 0 ""))
    else if containsSubstr host "smartrecruiters.com" then pathSegments.head?.map toTitleCase
    else if containsSubstr host "jobvite.com" then pathSegments.head?.map toTitleCase
    else if containsSubstr host "wellfound.com" && (wellfoundCompany pathSegments).isSome then
      wellfoundCompany pathSegments
    else if containsSubstr host "myworkdayjobs.com" && pathSegments.head?.isSome then
      pathSegments.head?.map toTitleCase
    else deriveFromDomainRoot host

example : parseUrl "https://boards.greenhouse.io/acme/jobs/123" =
    some { hostname := "boards.greenhouse.io", pathname := "/acme/jobs/123" } := by decide
example : deriveCompanyFromLink "https://boards.greenhouse.io/acme/jobs/123" = some "Acme" := by
  decide
example : deriveCompanyFromLink "https://na.com/jobs/1" = some "Na" := by decide
example : deriveCompanyFromLink "https://www.linkedin.com/jobs/view/1" = none := by decide
example : isGenericCompanyName "Na" = true := by decide
example : isGenericCompanyName "Canva" = false := by decide
example : isGenericCompanyName "Various Companies Inc" = true := by decide
example : isGenericCompanyName " unknown " = true := by decide
example : slugify "Monday.com" = "mondaycom" := by decide

/-! ### Bucket sampling and company normalization -/

/-- `CompanyBucket` from the source. -/
structure CompanyBucket where
  keywords : List String
  companies : List String
deriving DecidableEq

/-- `COMPANY_BUCKETS` from the source. -/
def COMPANY_BUCKETS : List CompanyBucket := [
  { keywords := ["data", "analytics", "machine learning", "ml", "ai", "scientist"],
    companies := ["Snowflake", "Databricks", "Palantir", "Anthropic", "Airbnb"] },
  { keywords := ["frontend", "javascript", "typescript", "react", "ui", "web"],
    companies := ["Vercel", "Netlify", "Canva", "Shopify", "Pinterest"] },
  { keywords := ["backend", "api", "server", "distributed", "platform"],
    companies := ["Cloudflare", "HashiCorp", "Twilio", "DigitalOcean", "MongoDB"] },
  { keywords := ["devops", "infrastructure", "sre", "platform engineering", "observability"],
    companies := ["Datadog", "PagerDuty", "GitHub", "GitLab", "New Relic"] },
  { keywords := ["mobile", "android", "ios", "swift", "kotlin"],
    companies := ["Spotify", "Duolingo", "Lyft", "Uber", "Headspace"] },
  { keywords := ["security", "infosec", "appsec", "threat", "soc", "zero trust"],
    companies := ["Okta", "CrowdStrike", "Snyk", "Cloudflare", "1Password"] },
  { keywords := ["product manager", "product management", "pm"],
    companies := ["Atlassian", "Notion", "Asana", "Monday.com", "Linear"] },
  { keywords := ["designer", "design", "ux", "ui", "product design"],
    companies := ["Figma", "Adobe", "Canva", "IDEO", "InVision"] },
  { keywords := ["marketing", "growth", "content", "brand", "demand"],
    companies := ["HubSpot", "Klaviyo", "Mailchimp", "Sprout Social", "Canva"] },
  { keywords := ["sales", "account executive", "account manager", "business development"],
    companies := ["Salesforce", "Gong", "Outreach", "HubSpot", "Zendesk"] },
  { keywords := ["finance", "fintech", "bank", "financial"],
    companies := ["Stripe", "Plaid", "Square", "Chime", "Robinhood"] },
  { keywords := ["health", "healthcare", "medtech", "clinical", "pharma"],
    companies := ["Teladoc", "Walgreens Health", "Johnson & Johnson", "Moderna", "One Medical"] },
  { keywords := ["education", "edtech", "teacher", "learning"],
    companies := ["Duolingo", "Coursera", "Khan Academy", "Udemy", "Outschool"] },
  { keywords := ["gaming", "game", "unity", "unreal"],
    companies := ["Riot Games", "Epic Games", "Blizzard Entertainment", "Ubisoft", "Supercell"] }]

/-- `DEFAULT_COMPANIES` from the source. -/
def DEFAULT_COMPANIES : List String :=
  ["Stripe", "Canva", "Atlassian", "HubSpot", "GitLab", "Notion", "Figma", "Twilio", "Airbnb",
   "Spotify"]

/-- `pickSampleCompany` from the source: first bucket with a keyword occurring
in the lower-cased `title query` text, indexed by hash and `index`; the
default list otherwise. -/
def pickSampleCompany (query : JobQuery) (index : Nat) : String :=
  let haystack := jsToLower (query.title ++ " " ++ query.query)
  match COMPANY_BUCKETS.find? (fun bucket =>
      bucket.keywords.any (fun keyword => containsSubstr haystack keyword)) with
  | some bucket =>
    let offset := (hashString haystack).natAbs
    bucket.companies.getD ((offset + index) % bucket.companies.length) ""
  | none =>
    DEFAULT_COMPANIES.getD (((hashString haystack).natAbs + index) % DEFAULT_COMPANIES.length) ""

/-- `normaliseCompanyName` from the source: verbatim trimmed name when not
generic, else link-derived name when truthy, else bucket sample. -/
def normaliseCompanyName (rawCompany : Option String) (link : String) (query : JobQuery)
    (index : Nat) : String :=
  let trimmed := (rawCompany.map jsTrim).getD ""
  if trimmed ≠ "" && !isGenericCompanyName trimmed then trimmed
  else
    match deriveCompanyFromLink link with
    | some derived => if derived ≠ "" then derived else pickSampleCompany query index
    | none => pickSampleCompany query index

/-! ### Link validation/repair (`ensureCompanyLink`) -/

/-- `ensureCompanyLink` from the source.  `rawLink = none` models a
non-string `link` field; `modelSource = none` models an absent AI `source`. -/
def ensureCompanyLink (rawLink : Option String) (company : String) (fallbackQuery : JobQuery)
    (location : Option String) (remote : Bool) (index : Nat) (modelSource : Option String) :
    LinkResult :=
  let seed := hashString (fallbackQuery.title ++ ":" ++ fallbackQuery.query ++ ":" ++ natToString index)
  let fallbackLink := buildSearchLink fallbackQuery (some company) location remote seed
  match rawLink with
  | none => fallbackLink
  | some raw =>
    if raw = "" || !jsStartsWith raw "https://" then fallbackLink
    else
      match parseUrl raw with
      | none => fallbackLink
      | some parsed =>
        let provider? := findProviderForHost parsed.hostname
        if company = "" then
          { url := raw,
            source := modelSource.getD ((provider?.map SearchProvider.name).getD fallbackLink.source) }
        else
          let companySlug := slugify company
          let linkIncludesCompany :=
            companySlug ≠ "" && containsSubstr (jsToLower raw) companySlug
          match provider? with
          | some provider =>
            if linkIncludesCompany then { url := raw, source := modelSource.getD provider.name }
            else
              { url := provider.buildUrl
                  { query := fallbackQuery, company := some company, location := location,
                    remote := remote },
                source := provider.name }
          | none =>
            if linkIncludesCompany then { url := raw, source := modelSource.getD "AI curated" }
            else { url := raw, source := modelSource.getD fallbackLink.source }

example : pickSampleCompany { title := "Data Engineer", query := "data pipelines" } 0 ∈
    ["Snowflake", "Databricks", "Palantir", "Anthropic", "Airbnb"] := by decide
example :
    (ensureCompanyLink (some "https://www.linkedin.com/jobs/view/canva-123") "Canva"
      { title := "Designer", query := "designer jobs" } none false 0 none).source =
      "LinkedIn search" := by decide
example :
    (ensureCompanyLink (some "https://www.linkedin.com/jobs/view/canva-123") "Canva"
      { title := "Designer", query := "designer jobs" } none false 0 (some "JSearch")).source =
      "JSearch" := by decide
example :
    (ensureCompanyLink (some "https://example.org/x") "Canva"
      { title := "Designer", query := "designer jobs" } none false 0 none) =
      { url := "https://example.org/x",
        source := (buildSearchLink { title := "Designer", query := "designer jobs" }
          (some "Canva") none false
          (hashString "Designer:designer jobs:0")).source } := by decide

/-! ### Strict JSON parsing (`JSON.parse` model) and `safeJsonParse` -/

/-- Opening curly brace character. -/
def lbrace : Char := Char.ofNat 123

/-- Closing curly brace character. -/
def rbrace : Char := Char.ofNat 125

/-- JSON values. Numbers are kept as `mant × 10 ^ exp10`. -/
inductive Json where
  | null
  | bool (b : Bool)
  | num (mant : Int) (exp10 : Int)
  | str (s : String)
  | arr (elements : List Json)
  | obj (fields : List (String × Json))

/-- JSON insignificant whitespace. -/
def jsonWs (c : Char) : Bool := c = ' ' || c = '\t' || c = '\n' || c = '\r'

/-- Drop leading JSON whitespace. -/
def skipWs (cs : List Char) : List Char := cs.dropWhile jsonWs

/-- Consume a literal character sequence. -/
def stripLit (lit cs : List Char) : Option (List Char) :=
  if listIsPre lit cs then some (cs.drop lit.length) else none

/-- Hexadecimal digit value. -/
def hexVal (c : Char) : Option Nat :=
  if '0' ≤ c && c ≤ '9' then some (c.toNat - 48)
  else if 'a' ≤ c && c ≤ 'f' then some (c.toNat - 87)
  else if 'A' ≤ c && c ≤ 'F' then some (c.toNat - 55)
  else none

/-- Body of a JSON string after the opening quote: returns the decoded
characters and the remainder after the closing quote. -/
def parseJsonStringAux : Nat → List Char → List Char → Option (List Char × List Char)
  | 0, _, _ => none
  | fuel + 1, acc, cs =>
    match cs with
    | [] => none
    | c :: rest =>
      if c = '"' then some (acc.reverse, rest)
      else if c = '\\' then
        match rest with
        | [] => none
        | e :: rest2 =>
          if e = '"' then parseJsonStringAux fuel ('"' :: acc) rest2
          else if e = '\\' then parseJsonStringAux fuel ('\\' :: acc) rest2
          else if e = '/' then parseJsonStringAux fuel ('/' :: acc) rest2
          else if e = 'b' then parseJsonStringAux fuel ('\x08' :: acc) rest2
          else if e = 'f' then parseJsonStringAux fuel ('\x0c' :: acc) rest2
          else if e = 'n' then parseJsonStringAux fuel ('\n' :: acc) rest2
          else if e = 'r' then parseJsonStringAux fuel ('\r' :: acc) rest2
          else if e = 't' then parseJsonStringAux fuel ('\t' :: acc) rest2
          else if e = 'u' then
            match rest2 with
            | h1 :: h2 :: h3 :: h4 :: rest3 =>
              match hexVal h1, hexVal h2, hexVal h3, hexVal h4 with
              | some a, some b, some c3, some d =>
                parseJsonStringAux fuel (Char.ofNat (((a * 16 + b) * 16 + c3) * 16 + d) :: acc) rest3
              | _, _, _, _ => none
            | _ => none
          else none
      else if c.toNat < 0x20 then none
      else parseJsonStringAux fuel (c :: acc) rest

/-- Value of a digit run. -/
def digitsToNat (ds : List Char) : Nat := ds.foldl (fun n c => n * 10 + (c.toNat - 48)) 0

/-- A JSON number per the strict grammar (`-? int frac? exp?`). -/
def parseJsonNumber (cs0 : List Char) : Option ((Int × Int) × List Char) := do
  let (neg, cs1) := match cs0 with
    | '-' :: t => (true, t)
    | _ => (false, cs0)
  let (intVal, cs2) ← match cs1 with
    | '0' :: t => some (0, t)
    | c :: t =>
      if '1' ≤ c ∧ c ≤ '9' then
        some (digitsToNat ((c :: t).takeWhile Char.isDigit), (c :: t).dropWhile Char.isDigit)
      else none
    | [] => none
  let (mant1, exp1, cs3) ← match cs2 with
    | '.' :: t =>
      let ds := t.takeWhile Char.isDigit
      if ds.isEmpty then none
      else some (intVal * 10 ^ ds.length + digitsToNat ds, -(ds.length : Int), t.dropWhile Char.isDigit)
    | _ => some (intVal, (0 : Int), cs2)
  let (exp2, cs4) ← match cs3 with
    | e :: t =>
      if e = 'e' ∨ e = 'E' then
        let (esign, t2) := match t with
          | '+' :: u => ((1 : Int), u)
          | '-' :: u => ((-1 : Int), u)
          | _ => ((1 : Int), t)
        let ds := t2.takeWhile Char.isDigit
        if ds.isEmpty then none
        else some (esign * (digitsToNat ds : Int), t2.dropWhile Char.isDigit)
      else some ((0 : Int), cs3)
    | [] => some ((0 : Int), cs3)
  some ((if neg then -(mant1 : Int) else (mant1 : Int), exp1 + exp2), cs4)

mutual

/-- A JSON value (leading whitespace allowed); fuel-driven recursion. -/
def parseJsonValue : Nat → List Char → Option (Json × List Char)
  | 0, _ => none
  | fuel + 1, cs =>
    match skipWs cs with
    | [] => none
    | c :: rest =>
      if c = lbrace then
        match skipWs rest with
        | c2 :: rest2 => if c2 = rbrace then some (Json.obj [], rest2) else parseJsonMembers fuel (skipWs rest) []
        | [] => none
      else if c = '[' then
        match skipWs rest with
        | ']' :: rest2 => some (Json.arr [], rest2)
        | _ => parseJsonElems fuel (skipWs rest) []
      else if c = '"' then
        (parseJsonStringAux (rest.length + 1) [] rest).map (fun r => (Json.str (String.mk r.1), r.2))
      else if c = 't' then (stripLit "rue".data rest).map (fun r => (Json.bool true, r))
      else if c = 'f' then (stripLit "alse".data rest).map (fun r => (Json.bool false, r))
      else if c = 'n' then (stripLit "ull".data rest).map (fun r => (Json.null, r))
      else (parseJsonNumber (c :: rest)).map (fun r => (Json.num r.1.1 r.1.2, r.2))

/-- Object members from the first key (whitespace before the key already
consumed), accumulating in reverse. -/
def parseJsonMembers : Nat → List Char → List (String × Json) → Option (Json × List Char)
  | 0, _, _ => none
  | fuel + 1, cs, acc =>
    match cs with
    | '"' :: rest => do
      let (key, rest2) ← parseJsonStringAux (rest.length + 1) [] rest
      match skipWs rest2 with
      | ':' :: rest3 => do
        let (v, rest4) ← parseJsonValue fuel rest3
        match skipWs rest4 with
        | ',' :: rest5 => parseJsonMembers fuel (skipWs rest5) ((String.mk key, v) :: acc)
        | c5 :: rest5 =>
          if c5 = rbrace then some (Json.obj (((String.mk key, v) :: acc).reverse), rest5)
          else none
        | [] => none
      | _ => none
    | _ => none

/-- Array elements from the first element, accumulating in reverse. -/
def parseJsonElems : Nat → List Char → List Json → Option (Json × List Char)
  | 0, _, _ => none
  | fuel + 1, cs, acc => do
    let (v, rest) ← parseJsonValue fuel cs
    match skipWs rest with
    | ',' :: rest2 => parseJsonElems fuel rest2 (v :: acc)
    | ']' :: rest2 => some (Json.arr ((v :: acc).reverse), rest2)
    | _ => none

end

/-- `JSON.parse` model: one JSON value, whitespace-padded, nothing else. -/
def jsonParse (text : String) : Option Json :=
  match parseJsonValue (2 * text.length + 2) text.data with
  | some (v, rest) => if (skipWs rest).isEmpty then some v else none
  | none => none

/-- `safeJsonParse` from the source: locate the first curly opening brace and
the last closing one, then strictly JSON-parse the inclusive slice.  The
error strings mirror the thrown messages (`SyntaxError` standing for whatever
`JSON.parse` throws). -/
def safeJsonParse (text : String) : Except String Json :=
  if text = "" then Except.error "Empty response from Gemini."
  else
    match jsIndexOfChar text lbrace, jsLastIndexOfChar text rbrace with
    | some firstBrace, some lastBrace =>
      if lastBrace ≤ firstBrace then
        Except.error "Unable to locate JSON block in Gemini response."
      else
        match jsonParse (jsSlice text firstBrace (lastBrace + 1)) with
        | some v => Except.ok v
        | none => Except.error "SyntaxError"
    | _, _ => Except.error "Unable to locate JSON block in Gemini response."

example : (jsonParse "\x7b\"a\":1\x7d").isSome = true := by rfl
example : (jsonParse "\x7b\"a\":1\x7d garbage").isSome = false := by rfl
example : (jsonParse " [1, true, null, \"x\", -2.5e2] ").isSome = true := by rfl
example : (jsonParse "\x7b\"a\":01\x7d").isSome = false := by rfl
example : safeJsonParse "noise \x7b\"a\":1\x7d noise" = Except.ok (Json.obj [("a", Json.num 1 0)]) := by
  rfl
example : safeJsonParse "no braces here" =
    Except.error "Unable to locate JSON block in Gemini response." := by rfl

/-! ### Resume truncation and model configuration -/

/-- `MAX_RESUME_LENGTH` from the source. -/
def MAX_RESUME_LENGTH : Nat := 8000

/-- `truncateContent` from the source: identity up to the budget, else the
first `MAX_RESUME_LENGTH` characters with an ellipsis marker appended. -/
def truncateContent (content : String) : String :=
  if content = "" then ""
  else if content.length ≤ MAX_RESUME_LENGTH then content
  else String.mk (content.data.take MAX_RESUME_LENGTH) ++ "..."

/-- `getModel` from the source, as a function of the `GEMINI_KEY` environment
value: throws when the key is empty, succeeds otherwise (the memoised client
handle itself carries no information the engine reads). -/
def getModel (geminiKey : String) : Except String Unit :=
  if geminiKey = "" then
    Except.error "Gemini model is not configured. Provide a valid GEMINI_API_KEY."
  else Except.ok ()

/-! ### The Job Synthesis Engine -/

/-- Placeholder provider for the (unreachable) out-of-range index of the
direct array access in `buildFallbackJobs`. -/
def defaultProvider : SearchProvider := { name := "", hosts := [], buildUrl := fun _ => "" }

/-- One fallback posting — the `.map` body inside `buildFallbackJobs`, for
query number `queryIndex` and row `offset`. -/
def fallbackPosting (location : Option String) (remote : Bool) (now : Nat)
    (queryIndex : Nat) (query : JobQuery) (offset : Nat) : JobPosting :=
  let locationLabel :=
    if remote then "Remote"
    else if strTruthy location then location.getD "" else "Flexible location"
  let company := pickSampleCompany query (queryIndex + offset)
  let seed := hashString
    (query.title ++ ":" ++ query.query ++ ":" ++ natToString queryIndex ++ ":" ++ natToString offset)
  let provider := SEARCH_PROVIDERS.getD (seed.natAbs % SEARCH_PROVIDERS.length) defaultProvider
  let url := provider.buildUrl
    { query := query, company := some company, location := location, remote := remote }
  { id := "fallback-" ++ natToString queryIndex ++ "-" ++ natToString offset ++ "-" ++ natToString now,
    title := query.title ++ " at " ++ company,
    company := some company,
    location := some locationLabel,
    salary := none,
    description := some ("Browse " ++ company ++ " and peer organisations hiring for " ++
      query.title ++ ". This search stays focused on " ++
      (if remote then "remote-first" else locationLabel) ++ " roles."),
    url := url,
    source := some provider.name,
    postedAt := none }

/-- `buildFallbackJobs` from the source (`now` models `Date.now()`):
`max(providerCount, 5)` rows per query. -/
def buildFallbackJobs (queries : List JobQuery) (location : Option String) (remote : Bool)
    (now : Nat) : List JobPosting :=
  let resultsPerQuery := max SEARCH_PROVIDERS.length 5
  queries.enum.flatMap (fun qi =>
    (List.range resultsPerQuery).map (fun offset =>
      fallbackPosting location remote now qi.1 qi.2 offset))

/-- Field lookup in a JSON object (later duplicate keys win, as in JS). -/
def jsonField (j : Json) (key : String) : Option Json :=
  match j with
  | Json.obj fields => ((fields.filter (fun f => f.1 = key)).getLast?).map (fun f => f.2)
  | _ => none

/-- A field that must be a JSON string (models `typeof x === 'string'`). -/
def jsonStrField (j : Json) (key : String) : Option String :=
  match jsonField j key with
  | some (Json.str s) => some s
  | _ => none

/-- `Array.isArray(parsed.jobs) ? parsed.jobs : []`. -/
def jsonJobsArray (parsed : Json) : List Json :=
  match jsonField parsed "jobs" with
  | some (Json.arr jobs) => jobs
  | _ => []

/-- `source.replace(/gemini/gi, 'AI curated')`: fuel-driven global
case-insensitive replacement. -/
def replaceGeminiCIAux : Nat → List Char → List Char
  | 0, cs => cs
  | fuel + 1, cs =>
    match cs with
    | [] => []
    | c :: t =>
      if listIsPre "gemini".data ((c :: t).map Char.toLower) then
        "AI curated".data ++ replaceGeminiCIAux fuel (t.drop 5)
      else c :: replaceGeminiCIAux fuel t

/-- JS `s.replace(/gemini/gi, 'AI curated')`. -/
def jsReplaceGeminiCI (s : String) : String :=
  String.mk (replaceGeminiCIAux s.data.length s.data)

/-- Assembly of one `JobPosting` from the AI-suggested raw object at `index`
(the `.map` body of the AI path in `generateJobsWithGemini`).  Precondition
from the boundary layer: `queries` is non-empty (the JS would fault on an
undefined `fallbackQuery` otherwise). -/
def jobFromJson (queries : List JobQuery) (location : Option String) (remote : Bool)
    (now : Nat) (index : Nat) (job : Json) : JobPosting :=
  let fallbackQuery := queries.getD (index % queries.length) default
  let rawLink := jsonStrField job "link"
  let derivedLocation :=
    match jsonStrField job "location" with
    | some s => if jsTrim s ≠ "" then some s else if remote then some "Remote" else location
    | none => if remote then some "Remote" else location
  let company :=
    normaliseCompanyName (jsonStrField job "company") (rawLink.getD "") fallbackQuery index
  let result :=
    ensureCompanyLink rawLink company fallbackQuery location remote index (jsonStrField job "source")
  let displaySource := if result.source ≠ "" then jsReplaceGeminiCI result.source else "AI curated"
  { id := match jsonStrField job "id" with
      | some s => if s ≠ "" then s else "gemini-" ++ natToString now ++ "-" ++ natToString index
      | none => "gemini-" ++ natToString now ++ "-" ++ natToString index,
    title := match jsonStrField job "title" with
      | some s => if s ≠ "" then s else fallbackQuery.title
      | none => fallbackQuery.title,
    company := some company,
    location := derivedLocation,
    salary := jsonStrField job "salary",
    description := some (match jsonStrField job "description" with
      | some s =>
        if s ≠ "" then s else "Review opportunities that align with " ++ fallbackQuery.title ++ "."
      | none => "Review opportunities that align with " ++ fallbackQuery.title ++ "."),
    url := result.url,
    source := some displaySource,
    postedAt := none }

/-- `generateJobsWithGemini` from the source.  `geminiKey` models the
`GEMINI_KEY` environment value consulted by `getModel` (called before the
`try` block — its error propagates).  `aiResponse` models the outcome of the
`generateContent` call inside the `try` block: `Except.error ()` is a thrown
network/model error, `Except.ok none` an `undefined` `result?.response?.text()`,
and `Except.ok (some t)` a returned text `t`.  Every failure inside the `try`
block is converted to the deterministic fallback list. -/
def generateJobsWithGemini (geminiKey : String) (aiResponse : Except Unit (Option String))
    (queries : List JobQuery) (location : Option String) (remote : Bool) (now : Nat) :
    Except String (List JobPosting) :=
  match getModel geminiKey with
  | Except.error e => Except.error e
  | Except.ok _ =>
    match aiResponse with
    | Except.error _ => Except.ok (buildFallbackJobs queries location remote now)
    | Except.ok textResponse =>
      match safeJsonParse (textResponse.getD "") with
      | Except.error _ => Except.ok (buildFallbackJobs queries location remote now)
      | Except.ok parsed =>
        let jobs := jsonJobsArray parsed
        if jobs.isEmpty then Except.ok (buildFallbackJobs queries location remote now)
        else
          Except.ok ((jobs.enum.map (fun ij => jobFromJson queries location remote now ij.1 ij.2)).filter
            (fun job => job.url ≠ ""))

example :
    generateJobsWithGemini "" (Except.error ()) [{ title := "Dev", query := "dev" }] none false 0 =
      Except.error "Gemini model is not configured. Provide a valid GEMINI_API_KEY." := by rfl
example :
    generateJobsWithGemini "key" (Except.error ()) [{ title := "Dev", query := "dev" }] none false 0 =
      Except.ok (buildFallbackJobs [{ title := "Dev", query := "dev" }] none false 0) := by rfl
example :
    (generateJobsWithGemini "key"
        (Except.ok (some "\x7b\"jobs\":[\x7b\"title\":\"SRE\",\"link\":\"https://na.com/jobs/1\",\"description\":\"d\",\"location\":\"X\"\x7d]\x7d"))
        [{ title := "Dev", query := "dev" }] none false 0).map
      (fun l => l.map JobPosting.company) = Except.ok [some "Na"] := by rfl

/-! ### Helper lemmas -/

/-- `truncateContent` as one conditional equation (the empty-string shortcut
of the source coincides with the identity branch). -/
theorem truncateContent_eq (s : String) :
    truncateContent s =
      if s.length ≤ MAX_RESUME_LENGTH then s
      else String.mk (s.data.take MAX_RESUME_LENGTH) ++ "..." := by
  unfold truncateContent
  by_cases h : s = ""
  · subst h; decide
  · simp [h]

/-! ### C9: `truncateContent` behaviour -/

/-- C9: `truncateContent` returns its input unchanged when the input's length
is at most 8000 characters, and otherwise returns exactly the first 8000
characters followed by the ellipsis marker; the marker is appended exactly in
the truncation branch. -/
theorem c9_truncateContent_spec (s : String) :
    truncateContent s =
      if s.length ≤ 8000 then s
      else String.mk (s.data.take 8000) ++ "..." :=
  truncateContent_eq s

/-! ### C10: `truncateContent` is idempotent -/

/-- C10: re-truncating an already-truncated string reproduces it:
`truncateContent (truncateContent s) = truncateContent s` for every `s`. -/
theorem c10_truncateContent_idempotent (s : String) :
    truncateContent (truncateContent s) = truncateContent s := by
  obtain ⟨l⟩ := s
  rw [truncateContent_eq ⟨l⟩]
  by_cases h : (String.mk l).length ≤ MAX_RESUME_LENGTH
  · rw [if_pos h, truncateContent_eq, if_pos h]
  · rw [if_neg h]
    rw [String.length_mk] at h
    have htake : (l.take MAX_RESUME_LENGTH).length = MAX_RESUME_LENGTH := by
      rw [List.length_take]
      omega
    have hlen :
        ¬(String.mk (l.take MAX_RESUME_LENGTH) ++ "...").length ≤ MAX_RESUME_LENGTH := by
      rw [String.length_append, String.length_mk, htake]
      decide
    rw [truncateContent_eq, if_neg hlen]
    have hdata :
        (String.mk (l.take MAX_RESUME_LENGTH) ++ "...").data.take MAX_RESUME_LENGTH =
          l.take MAX_RESUME_LENGTH := by
      rw [String.data_append]
      have step := List.take_left (l.take MAX_RESUME_LENGTH) "...".data
      rw [htake] at step
      exact step
    exact congrArg (fun d => String.mk d ++ "...") hdata

/-! ### C7: provider selection -/

/-- C7 counterexample: the seeds `-1` and `4` are congruent modulo the
provider count (5), yet `selectSearchProvider` picks different providers for
them, because `Math.abs` folds negative seeds onto their absolute value. -/
theorem c7_counterexample :
    SEARCH_PROVIDERS.length = 5 ∧
    (-1 : Int) % (SEARCH_PROVIDERS.length : Int) = (4 : Int) % (SEARCH_PROVIDERS.length : Int) ∧
    (selectSearchProvider (-1)).map SearchProvider.name ≠
      (selectSearchProvider 4).map SearchProvider.name := by
  refine ⟨rfl, by decide, by decide⟩

/-- C7 (amended): `selectSearchProvider` picks
`providers[abs(seed) mod providers.length]`, so any two seeds whose
*absolute values* are congruent modulo the provider count select the same
provider. -/
theorem c7_selectSearchProvider_abs_mod (s1 s2 : Int)
    (h : s1.natAbs % SEARCH_PROVIDERS.length = s2.natAbs % SEARCH_PROVIDERS.length) :
    selectSearchProvider s1 = selectSearchProvider s2 ∧
      selectSearchProvider s1 = SEARCH_PROVIDERS[s1.natAbs % SEARCH_PROVIDERS.length]? := by
  constructor
  · unfold selectSearchProvider
    rw [h]
  · unfold selectSearchProvider
    rw [if_neg (by decide : ¬SEARCH_PROVIDERS.length = 0)]

/-- C7 witness: seeds `-4` and `4` have equal absolute values, so the amended
statement applies and both select the same provider. -/
theorem c7_witness : selectSearchProvider (-4) = selectSearchProvider 4 :=
  (c7_selectSearchProvider_abs_mod (-4) 4 (by decide)).1

/-! ### C5: `safeJsonParse` -/

/-- C5: `safeJsonParse` locates the first opening and the last closing curly
brace; it succeeds exactly when both exist, the last strictly after the
first, and the inclusive slice between them parses as strict JSON; on the
claim's concrete inputs it returns the singleton object mapping a to 1, and
fails, respectively. -/
theorem c5_safeJsonParse_spec :
    safeJsonParse "noise \x7b\"a\":1\x7d noise" = Except.ok (Json.obj [("a", Json.num 1 0)]) ∧
    safeJsonParse "no braces here" =
      Except.error "Unable to locate JSON block in Gemini response." ∧
    ∀ text : String,
      (∃ v, safeJsonParse text = Except.ok v) ↔
        ∃ f l v, jsIndexOfChar text lbrace = some f ∧ jsLastIndexOfChar text rbrace = some l ∧
          f < l ∧ jsonParse (jsSlice text f (l + 1)) = some v := by
  refine ⟨rfl, rfl, fun text => ⟨?_, ?_⟩⟩
  · rintro ⟨v, hv⟩
    unfold safeJsonParse at hv
    split at hv
    · exact absurd hv (by simp)
    · split at hv
      next f l hf hl =>
        split at hv
        · exact absurd hv (by simp)
        next hlf =>
          split at hv
          next v' hsome =>
            exact ⟨f, l, v', hf, hl, by omega, hsome⟩
          · exact absurd hv (by simp)
      next hcatch => exact absurd hv (by simp)
  · rintro ⟨f, l, v, hf, hl, hfl, hparse⟩
    refine ⟨v, ?_⟩
    have he : ¬text = "" := by
      intro h
      subst h
      simp [jsIndexOfChar] at hf
    unfold safeJsonParse
    rw [if_neg he]
    simp only [hf, hl]
    rw [if_neg (by omega)]
    simp only [hparse]

/-! ### C2: company names in the final output -/

/-- Every bucket company and every default company is non-generic. -/
theorem allSampleCompanies_not_generic :
    ((COMPANY_BUCKETS.flatMap CompanyBucket.companies) ++ DEFAULT_COMPANIES).all
      (fun c => !isGenericCompanyName c) = true := by decide

/-- Each bucket holds exactly five pairwise-distinct companies. -/
theorem bucket_companies_len_nodup :
    ∀ b ∈ COMPANY_BUCKETS, b.companies.length = 5 ∧ b.companies.Nodup := by decide

/-- The default list holds ten pairwise-distinct companies. -/
theorem default_companies_len_nodup :
    DEFAULT_COMPANIES.length = 10 ∧ DEFAULT_COMPANIES.Nodup := by decide

/-- `getD` at an in-range index is a member. -/
theorem getD_mem_of_lt {α : Type} (l : List α) (n : Nat) (d : α) (h : n < l.length) :
    l.getD n d ∈ l := by
  rw [List.getD_eq_getElem l d h]
  exact List.getElem_mem h

/-- `pickSampleCompany` with its local `let` bindings expanded. -/
theorem pickSampleCompany_eq (query : JobQuery) (index : Nat) :
    pickSampleCompany query index =
      match COMPANY_BUCKETS.find? (fun bucket => bucket.keywords.any (fun keyword =>
          containsSubstr (jsToLower (query.title ++ " " ++ query.query)) keyword)) with
      | some bucket =>
        bucket.companies.getD
          (((hashString (jsToLower (query.title ++ " " ++ query.query))).natAbs + index) %
            bucket.companies.length) ""
      | none =>
        DEFAULT_COMPANIES.getD
          (((hashString (jsToLower (query.title ++ " " ++ query.query))).natAbs + index) %
            DEFAULT_COMPANIES.length) "" := rfl

/-- The bucket sample always comes from the fixed company tables. -/
theorem pickSampleCompany_mem (query : JobQuery) (index : Nat) :
    pickSampleCompany query index ∈
      (COMPANY_BUCKETS.flatMap CompanyBucket.companies) ++ DEFAULT_COMPANIES := by
  rw [pickSampleCompany_eq]
  split
  next bucket hfind =>
    have hmem : bucket ∈ COMPANY_BUCKETS := List.mem_of_find?_eq_some hfind
    have hlen : bucket.companies.length = 5 := (bucket_companies_len_nodup bucket hmem).1
    refine List.mem_append_left _ (List.mem_flatMap.mpr ⟨bucket, hmem, ?_⟩)
    exact getD_mem_of_lt _ _ _ (Nat.mod_lt _ (by rw [hlen]; decide))
  next hfind =>
    exact List.mem_append_right _ (getD_mem_of_lt _ _ _ (Nat.mod_lt _ (by decide)))

/-- A sampled company is never generic. -/
theorem pickSampleCompany_not_generic (query : JobQuery) (index : Nat) :
    isGenericCompanyName (pickSampleCompany query index) = false := by
  have hall := allSampleCompanies_not_generic
  rw [List.all_eq_true] at hall
  have h := hall _ (pickSampleCompany_mem query index)
  simpa using h

/-- `normaliseCompanyName` with its local `let` binding expanded. -/
theorem normaliseCompanyName_eq (rawCompany : Option String) (link : String) (query : JobQuery)
    (index : Nat) :
    normaliseCompanyName rawCompany link query index =
      if (rawCompany.map jsTrim).getD "" ≠ "" &&
          !isGenericCompanyName ((rawCompany.map jsTrim).getD "") then
        (rawCompany.map jsTrim).getD ""
      else
        match deriveCompanyFromLink link with
        | some derived => if derived ≠ "" then derived else pickSampleCompany query index
        | none => pickSampleCompany query index := rfl

/-- `normaliseCompanyName` yields a non-generic name unless the name was
derived from the link (the verbatim tier checks genericity itself; the
bucket tier only produces table entries). -/
theorem normaliseCompanyName_generic_only_from_link (rawCompany : Option String) (link : String)
    (query : JobQuery) (index : Nat) :
    isGenericCompanyName (normaliseCompanyName rawCompany link query index) = false ∨
      deriveCompanyFromLink link = some (normaliseCompanyName rawCompany link query index) := by
  rw [normaliseCompanyName_eq]
  split
  next hcond =>
    left
    simp only [Bool.and_eq_true, decide_eq_true_eq, Bool.not_eq_true'] at hcond
    exact hcond.2
  next hcond =>
    split
    next derived hder =>
      split
      next hne => right; exact hder
      next hne => left; exact pickSampleCompany_not_generic query index
    next hder => left; exact pickSampleCompany_not_generic query index

/-- The two shapes of a successful engine result: the deterministic fallback
list, or the filtered per-index assembly of some AI-suggested raw array. -/
theorem generateJobs_ok_cases (geminiKey : String) (aiResponse : Except Unit (Option String))
    (queries : List JobQuery) (location : Option String) (remote : Bool) (now : Nat)
    (jobsOut : List JobPosting)
    (h : generateJobsWithGemini geminiKey aiResponse queries location remote now =
      Except.ok jobsOut) :
    jobsOut = buildFallbackJobs queries location remote now ∨
      ∃ jobs : List Json,
        jobsOut = (jobs.enum.map (fun ij => jobFromJson queries location remote now ij.1 ij.2)).filter
          (fun job => job.url ≠ "") := by
  unfold generateJobsWithGemini at h
  split at h
  · exact absurd h (by simp)
  · split at h
    · left
      injection h with h'
      exact h'.symm
    · split at h
      · left
        injection h with h'
        exact h'.symm
      next parsed hparsed =>
        replace h :
            (if (jsonJobsArray parsed).isEmpty = true then
              Except.ok (buildFallbackJobs queries location remote now)
            else
              Except.ok
                (List.filter (fun job => decide (job.url ≠ ""))
                  (List.map (fun ij => jobFromJson queries location remote now ij.1 ij.2)
                    (jsonJobsArray parsed).enum))) = Except.ok jobsOut := h
        split at h
        · left
          injection h with h'
          exact h'.symm
        · right
          refine ⟨jsonJobsArray parsed, ?_⟩
          injection h with h'
          exact h'.symm

/-- C2 (amended): every posting returned by the engine carries a company name
that is either non-generic or was produced by the link-derivation tier
(`deriveCompanyFromLink`); the link-derived tier itself can produce a generic
name, see the counterexample. -/
theorem c2_company_not_generic_unless_link_derived (geminiKey : String)
    (aiResponse : Except Unit (Option String)) (queries : List JobQuery)
    (location : Option String) (remote : Bool) (now : Nat) (jobsOut : List JobPosting)
    (h : generateJobsWithGemini geminiKey aiResponse queries location remote now =
      Except.ok jobsOut) :
    ∀ p ∈ jobsOut, ∃ c, p.company = some c ∧
      (isGenericCompanyName c = false ∨ ∃ link, deriveCompanyFromLink link = some c) := by
  intro p hp
  rcases generateJobs_ok_cases _ _ _ _ _ _ _ h with hfb | ⟨jobs, hai⟩
  · subst hfb
    unfold buildFallbackJobs at hp
    rw [List.mem_flatMap] at hp
    obtain ⟨qi, hqi, hp⟩ := hp
    rw [List.mem_map] at hp
    obtain ⟨off, hoff, hpe⟩ := hp
    subst hpe
    exact ⟨pickSampleCompany qi.2 (qi.1 + off), rfl,
      Or.inl (pickSampleCompany_not_generic _ _)⟩
  · subst hai
    rw [List.mem_filter] at hp
    obtain ⟨hp, _⟩ := hp
    rw [List.mem_map] at hp
    obtain ⟨ij, hij, hpe⟩ := hp
    subst hpe
    refine ⟨_, rfl, ?_⟩
    rcases normaliseCompanyName_generic_only_from_link (jsonStrField ij.2 "company")
        ((jsonStrField ij.2 "link").getD "") (queries.getD (ij.1 % queries.length) default) ij.1 with
      hng | hder
    · exact Or.inl hng
    · exact Or.inr ⟨(jsonStrField ij.2 "link").getD "", hder⟩

/-- C2 witness: the amended statement applied to a concrete fallback run. -/
theorem c2_witness :
    ∃ c,
      ((((generateJobsWithGemini "key" (Except.error ()) [{ title := "Dev", query := "dev" }] none
        false 0).toOption.getD []).headD default).company) = some c ∧
      (isGenericCompanyName c = false ∨ ∃ link, deriveCompanyFromLink link = some c) :=
  c2_company_not_generic_unless_link_derived "key" (Except.error ())
    [{ title := "Dev", query := "dev" }] none false 0 _ rfl _ (by decide)

/-- C2 counterexample: an AI posting with no company and the link
`https://na.com/jobs/1` is returned with the link-derived company `"Na"`,
which `isGenericCompanyName` classifies as generic. -/
theorem c2_counterexample :
    (generateJobsWithGemini "key"
        (Except.ok (some "\x7b\"jobs\":[\x7b\"title\":\"SRE\",\"link\":\"https://na.com/jobs/1\",\"description\":\"d\",\"location\":\"X\"\x7d]\x7d"))
        [{ title := "Dev", query := "dev" }] none false 0).map
      (fun l => l.map JobPosting.company) = Except.ok [some "Na"] ∧
    isGenericCompanyName "Na" = true := ⟨rfl, by decide⟩

/-! ### C3: every returned url is https -/

/-- A leading segment of `l` is also a leading segment of `l ++ r`. -/
theorem listIsPre_append (p l r : List Char) (h : listIsPre p l = true) :
    listIsPre p (l ++ r) = true := by
  induction p generalizing l with
  | nil => rfl
  | cons a as ih =>
    cases l with
    | nil => simp [listIsPre] at h
    | cons b bs =>
      simp only [listIsPre, Bool.and_eq_true, decide_eq_true_eq] at h ⊢
      exact ⟨h.1, ih bs h.2⟩

/-- `startsWith` survives appending to the right. -/
theorem jsStartsWith_append (lit rest pre : String) (h : jsStartsWith lit pre = true) :
    jsStartsWith (lit ++ rest) pre = true := by
  unfold jsStartsWith at h ⊢
  rw [String.data_append]
  exact listIsPre_append _ _ _ h

/-- Every provider's URL builder emits an `https://` URL. -/
theorem provider_buildUrl_https (provider : SearchProvider) (hmem : provider ∈ SEARCH_PROVIDERS)
    (opts : BuildUrlOptions) : jsStartsWith (provider.buildUrl opts) "https://" = true := by
  fin_cases hmem <;> exact jsStartsWith_append _ _ _ (by decide)

/-- The provider registry is non-empty, so selection always succeeds with a
registered provider. -/
theorem selectSearchProvider_mem (seed : Int) :
    ∃ provider, selectSearchProvider seed = some provider ∧ provider ∈ SEARCH_PROVIDERS := by
  unfold selectSearchProvider
  rw [if_neg (by decide : ¬SEARCH_PROVIDERS.length = 0)]
  have hlt : seed.natAbs % SEARCH_PROVIDERS.length < SEARCH_PROVIDERS.length :=
    Nat.mod_lt _ (by decide)
  exact ⟨SEARCH_PROVIDERS[seed.natAbs % SEARCH_PROVIDERS.length], List.getElem?_eq_getElem hlt,
    List.getElem_mem hlt⟩

/-- `buildSearchLink` emits an `https://` URL. -/
theorem buildSearchLink_url_https (query : JobQuery) (company : Option String)
    (location : Option String) (remote : Bool) (seed : Int) :
    jsStartsWith (buildSearchLink query company location remote seed).url "https://" = true := by
  obtain ⟨provider, hsel, hmem⟩ := selectSearchProvider_mem seed
  unfold buildSearchLink
  rw [hsel]
  exact provider_buildUrl_https provider hmem _

/-- `ensureCompanyLink` with its local `let` bindings expanded. -/
theorem ensureCompanyLink_eq (rawLink : Option String) (company : String)
    (fallbackQuery : JobQuery) (location : Option String) (remote : Bool) (index : Nat)
    (modelSource : Option String) :
    ensureCompanyLink rawLink company fallbackQuery location remote index modelSource =
      match rawLink with
      | none =>
        buildSearchLink fallbackQuery (some company) location remote
          (hashString (fallbackQuery.title ++ ":" ++ fallbackQuery.query ++ ":" ++ natToString index))
      | some raw =>
        if raw = "" || !jsStartsWith raw "https://" then
          buildSearchLink fallbackQuery (some company) location remote
            (hashString (fallbackQuery.title ++ ":" ++ fallbackQuery.query ++ ":" ++ natToString index))
        else
          match parseUrl raw with
          | none =>
            buildSearchLink fallbackQuery (some company) location remote
              (hashString (fallbackQuery.title ++ ":" ++ fallbackQuery.query ++ ":" ++ natToString index))
          | some parsed =>
            if company = "" then
              { url := raw,
                source := modelSource.getD
                  (((findProviderForHost parsed.hostname).map SearchProvider.name).getD
                    (buildSearchLink fallbackQuery (some company) location remote
                      (hashString (fallbackQuery.title ++ ":" ++ fallbackQuery.query ++ ":" ++
                        natToString index))).source) }
            else
              match findProviderForHost parsed.hostname with
              | some provider =>
                if slugify company ≠ "" && containsSubstr (jsToLower raw) (slugify company) then
                  { url := raw, source := modelSource.getD provider.name }
                else
                  { url := provider.buildUrl
                      { query := fallbackQuery, company := some company, location := location,
                        remote := remote },
                    source := provider.name }
              | none =>
                if slugify company ≠ "" && containsSubstr (jsToLower raw) (slugify company) then
                  { url := raw, source := modelSource.getD "AI curated" }
                else
                  { url := raw,
                    source := modelSource.getD
                      (buildSearchLink fallbackQuery (some company) location remote
                        (hashString (fallbackQuery.title ++ ":" ++ fallbackQuery.query ++ ":" ++
                          natToString index))).source } := rfl

/-- Membership of the provider found for a host. -/
theorem findProviderForHost_mem (hostname : String) (provider : SearchProvider)
    (h : findProviderForHost hostname = some provider) : provider ∈ SEARCH_PROVIDERS := by
  replace h :
      SEARCH_PROVIDERS.find? (fun provider =>
        provider.hosts.any (fun host => containsSubstr (jsToLower hostname) host)) =
        some provider := h
  exact List.mem_of_find?_eq_some h

/-- The repaired link of `ensureCompanyLink` always starts with `https://`. -/
theorem ensureCompanyLink_url_https (rawLink : Option String) (company : String)
    (fallbackQuery : JobQuery) (location : Option String) (remote : Bool) (index : Nat)
    (modelSource : Option String) :
    jsStartsWith
      (ensureCompanyLink rawLink company fallbackQuery location remote index modelSource).url
      "https://" = true := by
  rw [ensureCompanyLink_eq]
  split
  · exact buildSearchLink_url_https _ _ _ _ _
  next raw =>
    split
    · exact buildSearchLink_url_https _ _ _ _ _
    next hguard =>
      have hhttps : jsStartsWith raw "https://" = true := by
        simp only [Bool.or_eq_true, decide_eq_true_eq, Bool.not_eq_true', not_or] at hguard
        cases hb : jsStartsWith raw "https://" with
        | true => rfl
        | false => exact absurd hb hguard.2
      split
      · exact buildSearchLink_url_https _ _ _ _ _
      next parsed =>
        split
        · exact hhttps
        · split
          next provider hprov =>
            split
            · exact hhttps
            · exact provider_buildUrl_https provider (findProviderForHost_mem _ _ hprov) _
          next hprov =>
            split
            · exact hhttps
            · exact hhttps

/-- Every fallback posting's url starts with `https://`. -/
theorem fallbackPosting_url_https (location : Option String) (remote : Bool) (now : Nat)
    (queryIndex : Nat) (query : JobQuery) (offset : Nat) :
    jsStartsWith (fallbackPosting location remote now queryIndex query offset).url "https://" =
      true :=
  provider_buildUrl_https _
    (getD_mem_of_lt SEARCH_PROVIDERS _ defaultProvider (Nat.mod_lt _ (by decide))) _

/-- C3: under any input — any key, any AI outcome, any queries and
location/remote preference — every posting in a successfully returned list
has a url starting with `https://`. -/
theorem c3_every_url_https (geminiKey : String) (aiResponse : Except Unit (Option String))
    (queries : List JobQuery) (location : Option String) (remote : Bool) (now : Nat)
    (jobsOut : List JobPosting)
    (h : generateJobsWithGemini geminiKey aiResponse queries location remote now =
      Except.ok jobsOut) :
    ∀ p ∈ jobsOut, jsStartsWith p.url "https://" = true := by
  intro p hp
  rcases generateJobs_ok_cases _ _ _ _ _ _ _ h with hfb | ⟨jobs, hai⟩
  · subst hfb
    unfold buildFallbackJobs at hp
    rw [List.mem_flatMap] at hp
    obtain ⟨qi, _, hp⟩ := hp
    rw [List.mem_map] at hp
    obtain ⟨off, _, hpe⟩ := hp
    subst hpe
    exact fallbackPosting_url_https _ _ _ _ _ _
  · subst hai
    rw [List.mem_filter] at hp
    obtain ⟨hp, _⟩ := hp
    rw [List.mem_map] at hp
    obtain ⟨ij, _, hpe⟩ := hp
    subst hpe
    exact ensureCompanyLink_url_https _ _ _ _ _ _ _

/-- C3 witness: the https invariant applied to a concrete fallback run. -/
theorem c3_witness :
    jsStartsWith
      ((((generateJobsWithGemini "key" (Except.error ()) [{ title := "Dev", query := "dev" }] none
        false 0).toOption.getD []).headD default).url) "https://" = true :=
  c3_every_url_https "key" (Except.error ()) [{ title := "Dev", query := "dev" }] none false 0 _
    rfl _ (by decide)

/-! ### C6: link validation source labels -/

/-- C6 (amended): for an accepted https link, when the host matches a known
provider and the link contains the company slug, the posting keeps the link
and its source is the AI-supplied source when present, otherwise the
provider's name; when the host is unrecognized and the link does not contain
the slug, the link is still accepted and its source is the AI-supplied
source when present, otherwise the deterministic fallback's source label. -/
theorem c6_ensureCompanyLink_source_rules (raw company : String) (fallbackQuery : JobQuery)
    (location : Option String) (remote : Bool) (index : Nat) (modelSource : Option String)
    (parsed : UrlParts)
    (hhttps : jsStartsWith raw "https://" = true)
    (hparse : parseUrl raw = some parsed)
    (hcompany : company ≠ "") :
    (∀ provider, findProviderForHost parsed.hostname = some provider →
      slugify company ≠ "" → containsSubstr (jsToLower raw) (slugify company) = true →
      ensureCompanyLink (some raw) company fallbackQuery location remote index modelSource =
        { url := raw, source := modelSource.getD provider.name }) ∧
    (findProviderForHost parsed.hostname = none →
      (slugify company = "" ∨ containsSubstr (jsToLower raw) (slugify company) = false) →
      ensureCompanyLink (some raw) company fallbackQuery location remote index modelSource =
        { url := raw,
          source := modelSource.getD
            (buildSearchLink fallbackQuery (some company) location remote
              (hashString (fallbackQuery.title ++ ":" ++ fallbackQuery.query ++ ":" ++
                natToString index))).source }) := by
  have hne : raw ≠ "" := by
    intro h
    subst h
    exact absurd hhttps (by decide)
  have hraw : ¬(raw = "" || !jsStartsWith raw "https://") = true := by
    simp [hne, hhttps]
  constructor
  · intro provider hprov hslug hcont
    simp only [ensureCompanyLink_eq]
    rw [if_neg hraw]
    simp only [hparse]
    rw [if_neg hcompany]
    simp only [hprov]
    rw [if_pos (by simp [hslug, hcont])]
  · intro hprov hnc
    simp only [ensureCompanyLink_eq]
    rw [if_neg hraw]
    simp only [hparse]
    rw [if_neg hcompany]
    simp only [hprov]
    rw [if_neg ?hcond]
    case hcond =>
      rcases hnc with hs | hc
      · simp [hs]
      · simp [hc]

/-- C6 counterexample: an AI-supplied `source` overrides the provider label —
a LinkedIn-hosted link containing the company slug is returned with the AI's
own `source` string, not the provider's name, falsifying the claim as
stated. -/
theorem c6_counterexample :
    (parseUrl "https://www.linkedin.com/jobs/view/canva-123").map UrlParts.hostname =
      some "www.linkedin.com" ∧
    (findProviderForHost "www.linkedin.com").map SearchProvider.name = some "LinkedIn search" ∧
    jsStartsWith "https://www.linkedin.com/jobs/view/canva-123" "https://" = true ∧
    containsSubstr (jsToLower "https://www.linkedin.com/jobs/view/canva-123") (slugify "Canva") =
      true ∧
    (ensureCompanyLink (some "https://www.linkedin.com/jobs/view/canva-123") "Canva"
        { title := "Designer", query := "designer jobs" } none false 0 (some "JSearch")).source ≠
      "LinkedIn search" :=
  ⟨rfl, rfl, rfl, by decide, by decide⟩

/-- C6 witness: with no AI-supplied source, a provider-hosted link containing
the company slug is kept and labelled with the provider's name. -/
theorem c6_witness :
    ensureCompanyLink (some "https://www.linkedin.com/jobs/view/canva-123") "Canva"
        { title := "Designer", query := "designer jobs" } none false 0 none =
      { url := "https://www.linkedin.com/jobs/view/canva-123", source := "LinkedIn search" } :=
  (c6_ensureCompanyLink_source_rules "https://www.linkedin.com/jobs/view/canva-123" "Canva"
    { title := "Designer", query := "designer jobs" } none false 0 none
    { hostname := "www.linkedin.com", pathname := "/jobs/view/canva-123" } (by decide) (by decide)
    (by decide)).1 (SEARCH_PROVIDERS.getD 0 defaultProvider) rfl (by decide) (by decide)

/-! ### C4: duplicates -/

/-- Distinct in-range indices of a duplicate-free list give distinct entries. -/
theorem getD_nodup_ne (l : List String) (hnd : l.Nodup) (i j : Nat) (hi : i < l.length)
    (hj : j < l.length) (hij : i ≠ j) : l.getD i "" ≠ l.getD j "" := by
  rw [List.getD_eq_getElem l "" hi, List.getD_eq_getElem l "" hj]
  intro h
  exact hij (hnd.getElem_inj_iff.mp h)

/-- Adding distinct small offsets to a common base keeps residues apart. -/
theorem add_mod_ne (k i j m : Nat) (hm : 5 ≤ m) (hi : i < 5) (hj : j < 5) (hij : i ≠ j) :
    (k + i) % m ≠ (k + j) % m := by
  intro h
  have h' : i % m = j % m := Nat.ModEq.add_left_cancel' k h
  rw [Nat.mod_eq_of_lt (by omega), Nat.mod_eq_of_lt (by omega)] at h'
  exact hij h'

/-- Within one query, distinct row offsets (below five) sample distinct
companies: the chosen bucket (or the default list) has at least five
pairwise-distinct entries. -/
theorem pickSampleCompany_ne (query : JobQuery) (k i j : Nat) (hi : i < 5) (hj : j < 5)
    (hij : i ≠ j) : pickSampleCompany query (k + i) ≠ pickSampleCompany query (k + j) := by
  rw [pickSampleCompany_eq, pickSampleCompany_eq]
  split
  next bucket hfind =>
    obtain ⟨hlen, hnd⟩ :=
      bucket_companies_len_nodup bucket (List.mem_of_find?_eq_some hfind)
    rw [← Nat.add_assoc, ← Nat.add_assoc]
    exact getD_nodup_ne _ hnd _ _ (Nat.mod_lt _ (by omega)) (Nat.mod_lt _ (by omega))
      (add_mod_ne _ _ _ _ (by omega) hi hj hij)
  next hfind =>
    obtain ⟨hlen, hnd⟩ := default_companies_len_nodup
    rw [← Nat.add_assoc, ← Nat.add_assoc]
    exact getD_nodup_ne _ hnd _ _ (Nat.mod_lt _ (by omega)) (Nat.mod_lt _ (by omega))
      (add_mod_ne _ _ _ _ (by omega) hi hj hij)

/-- C4 (amended): the engine itself never merges postings — the fallback
batch for a single query contains no two postings with the same company and
link combination (their companies already differ); AI-path duplicates are
passed through unchanged, see the counterexample. -/
theorem c4_fallback_single_query_no_duplicates (query : JobQuery) (location : Option String)
    (remote : Bool) (now : Nat) :
    (buildFallbackJobs [query] location remote now).Pairwise
      (fun a b => ¬(a.company = b.company ∧ a.url = b.url)) := by
  have hexp : buildFallbackJobs [query] location remote now =
      (List.range 5).map (fallbackPosting location remote now 0 query) := rfl
  rw [hexp, List.pairwise_map]
  refine List.Pairwise.imp_of_mem ?_ (List.pairwise_lt_range 5)
  intro i j hi hj hlt hdup
  rw [List.mem_range] at hi hj
  have hcomp : some (pickSampleCompany query (0 + i)) = some (pickSampleCompany query (0 + j)) :=
    hdup.1
  exact pickSampleCompany_ne query 0 i j hi hj (Nat.ne_of_lt hlt) (Option.some.inj hcomp)

/-- C4 counterexample: two identical AI postings (same company and link) are
both returned — the engine performs no deduplication on the AI path. -/
theorem c4_counterexample :
    (generateJobsWithGemini "key"
        (Except.ok (some "\x7b\"jobs\":[\x7b\"title\":\"T\",\"company\":\"Canva\",\"link\":\"https://canva.com/careers\",\"description\":\"d\",\"location\":\"L\"\x7d,\x7b\"title\":\"T\",\"company\":\"Canva\",\"link\":\"https://canva.com/careers\",\"description\":\"d\",\"location\":\"L\"\x7d]\x7d"))
        [{ title := "Dev", query := "dev" }] none false 0).map
      (fun l => l.map (fun p => (p.company, p.url))) =
      Except.ok [(some "Canva", "https://canva.com/careers"),
        (some "Canva", "https://canva.com/careers")] ∧
    ¬((generateJobsWithGemini "key"
        (Except.ok (some "\x7b\"jobs\":[\x7b\"title\":\"T\",\"company\":\"Canva\",\"link\":\"https://canva.com/careers\",\"description\":\"d\",\"location\":\"L\"\x7d,\x7b\"title\":\"T\",\"company\":\"Canva\",\"link\":\"https://canva.com/careers\",\"description\":\"d\",\"location\":\"L\"\x7d]\x7d"))
        [{ title := "Dev", query := "dev" }] none false 0).toOption.getD []).Pairwise
      (fun a b => ¬(a.company = b.company ∧ a.url = b.url)) :=
  ⟨rfl, by decide⟩

/-! ### C8: id uniqueness -/

/-- The decimal printer never returns an empty list when fuelled. -/
theorem natToStringAux_ne_nil (fuel n : Nat) (h : 0 < fuel) : natToStringAux fuel n ≠ [] := by
  cases fuel with
  | zero => omega
  | succ g =>
    unfold natToStringAux
    split
    · simp
    · simp

/-- No digit character is a dash (bounded check). -/
theorem digitChar_bounded_ne_dash : ∀ k, k < 10 → Char.ofNat (48 + k) ≠ '-' := by decide

/-- No digit character is a dash. -/
theorem digitChar_ne_dash (n : Nat) : digitChar n ≠ '-' :=
  digitChar_bounded_ne_dash (n % 10) (Nat.mod_lt _ (by decide))

/-- Digit characters determine the digit (bounded check). -/
theorem digitChar_bounded_inj :
    ∀ x, x < 10 → ∀ y, y < 10 → Char.ofNat (48 + x) = Char.ofNat (48 + y) → x = y := by decide

/-- Digit characters determine the digit modulo ten. -/
theorem digitChar_inj_mod (a b : Nat) (h : digitChar a = digitChar b) : a % 10 = b % 10 :=
  digitChar_bounded_inj (a % 10) (Nat.mod_lt _ (by decide)) (b % 10) (Nat.mod_lt _ (by decide)) h

/-- The decimal printer emits no dash. -/
theorem natToStringAux_no_dash (fuel : Nat) : ∀ n, '-' ∉ natToStringAux fuel n := by
  induction fuel with
  | zero =>
    intro n h
    exact absurd h (List.not_mem_nil _)
  | succ g ih =>
    intro n
    unfold natToStringAux
    split
    · intro h
      exact digitChar_ne_dash n (List.mem_singleton.mp h).symm
    · intro h
      rcases List.mem_append.mp h with h | h
      · exact ih _ h
      · exact digitChar_ne_dash _ (List.mem_singleton.mp h).symm

/-- The decimal printer is injective whenever the fuel dominates the value. -/
theorem natToStringAux_inj : ∀ f1 : Nat, ∀ n1 f2 n2 : Nat, n1 < 10 ^ f1 → n2 < 10 ^ f2 →
    natToStringAux f1 n1 = natToStringAux f2 n2 → n1 = n2 := by
  intro f1
  induction f1 with
  | zero =>
    intro n1 f2 n2 h1 h2 heq
    have hn1 : n1 = 0 := by simpa using h1
    cases f2 with
    | zero =>
      have hn2 : n2 = 0 := by simpa using h2
      omega
    | succ g2 => exact absurd heq.symm (natToStringAux_ne_nil (g2 + 1) n2 (Nat.succ_pos g2))
  | succ g1 ih =>
    intro n1 f2 n2 h1 h2 heq
    cases f2 with
    | zero => exact absurd heq (natToStringAux_ne_nil (g1 + 1) n1 (Nat.succ_pos g1))
    | succ g2 =>
      unfold natToStringAux at heq
      by_cases hn1 : n1 < 10
      · by_cases hn2 : n2 < 10
        · rw [if_pos hn1, if_pos hn2] at heq
          have hd : digitChar n1 = digitChar n2 := (List.cons.injEq _ _ _ _ ▸ heq).1
          have := digitChar_inj_mod n1 n2 hd
          omega
        · rw [if_pos hn1, if_neg hn2] at heq
          exfalso
          have hg2 : 0 < g2 := by
            rcases Nat.eq_zero_or_pos g2 with h0 | h0
            · subst h0
              simp at h2
              omega
            · exact h0
          have hne := natToStringAux_ne_nil g2 (n2 / 10) hg2
          have hlen := congrArg List.length heq
          rw [List.length_append, List.length_singleton, List.length_singleton] at hlen
          exact hne (List.eq_nil_of_length_eq_zero (by omega))
      · by_cases hn2 : n2 < 10
        · rw [if_neg hn1, if_pos hn2] at heq
          exfalso
          have hg1 : 0 < g1 := by
            rcases Nat.eq_zero_or_pos g1 with h0 | h0
            · subst h0
              simp at h1
              omega
            · exact h0
          have hne := natToStringAux_ne_nil g1 (n1 / 10) hg1
          have hlen := congrArg List.length heq
          rw [List.length_append, List.length_singleton, List.length_singleton] at hlen
          exact hne (List.eq_nil_of_length_eq_zero (by omega))
        · rw [if_neg hn1, if_neg hn2] at heq
          obtain ⟨hA, hd⟩ := List.append_inj' heq rfl
          have hdd : digitChar (n1 % 10) = digitChar (n2 % 10) := by injection hd
          have hmod := digitChar_inj_mod _ _ hdd
          have hb1 : n1 / 10 < 10 ^ g1 := by
            rw [Nat.pow_succ, Nat.mul_comm] at h1
            exact Nat.div_lt_of_lt_mul h1
          have hb2 : n2 / 10 < 10 ^ g2 := by
            rw [Nat.pow_succ, Nat.mul_comm] at h2
            exact Nat.div_lt_of_lt_mul h2
          have hdiv : n1 / 10 = n2 / 10 := ih (n1 / 10) g2 (n2 / 10) hb1 hb2 hA
          omega

/-- Decimal rendering is injective. -/
theorem natToString_inj (m n : Nat) (h : natToString m = natToString n) : m = n := by
  have hm : m < 10 ^ (m + 1) :=
    lt_of_lt_of_le (Nat.lt_pow_self (by norm_num) m)
      (Nat.pow_le_pow_right (by norm_num) (Nat.le_succ m))
  have hn : n < 10 ^ (n + 1) :=
    lt_of_lt_of_le (Nat.lt_pow_self (by norm_num) n)
      (Nat.pow_le_pow_right (by norm_num) (Nat.le_succ n))
  exact natToStringAux_inj (m + 1) m (n + 1) n hm hn (congrArg String.data h)

/-- Splitting at a dash separator is unambiguous when neither left part
contains a dash. -/
theorem append_dash_inj (a : List Char) : ∀ a' b b' : List Char, '-' ∉ a → '-' ∉ a' →
    a ++ '-' :: b = a' ++ '-' :: b' → a = a' ∧ b = b' := by
  induction a with
  | nil =>
    intro a' b b' _ ha' h
    cases a' with
    | nil => simpa using h
    | cons x xs =>
      exfalso
      simp only [List.nil_append, List.cons_append, List.cons.injEq] at h
      obtain ⟨hx, -⟩ := h
      subst hx
      exact ha' (List.mem_cons_self _ _)
  | cons y ys ih =>
    intro a' b b' ha ha' h
    cases a' with
    | nil =>
      exfalso
      simp only [List.nil_append, List.cons_append, List.cons.injEq] at h
      obtain ⟨hy, -⟩ := h
      subst hy
      exact ha (List.mem_cons_self _ _)
    | cons z zs =>
      simp only [List.cons_append, List.cons.injEq] at h
      obtain ⟨hyz, htail⟩ := h
      subst hyz
      obtain ⟨h1, h2⟩ := ih zs b b' (fun hm => ha (List.mem_cons_of_mem _ hm))
        (fun hm => ha' (List.mem_cons_of_mem _ hm)) htail
      exact ⟨by rw [h1], h2⟩

/-- The id assigned to a fallback posting. -/
def fallbackId (queryIndex offset now : Nat) : String :=
  "fallback-" ++ natToString queryIndex ++ "-" ++ natToString offset ++ "-" ++ natToString now

/-- The id field of a fallback posting. -/
theorem fallbackPosting_id (location : Option String) (remote : Bool) (now : Nat)
    (queryIndex : Nat) (query : JobQuery) (offset : Nat) :
    (fallbackPosting location remote now queryIndex query offset).id =
      fallbackId queryIndex offset now := rfl

/-- Fallback ids determine the query number and the row offset. -/
theorem fallbackId_inj (qi off now qi' off' now' : Nat)
    (h : fallbackId qi off now = fallbackId qi' off' now') : qi = qi' ∧ off = off' := by
  have hd := congrArg String.data h
  simp only [fallbackId, String.data_append, List.append_assoc, List.singleton_append] at hd
  replace hd := List.append_cancel_left hd
  have hnd1 : '-' ∉ (natToString qi).data := natToStringAux_no_dash (qi + 1) qi
  have hnd1' : '-' ∉ (natToString qi').data := natToStringAux_no_dash (qi' + 1) qi'
  have hnd2 : '-' ∉ (natToString off).data := natToStringAux_no_dash (off + 1) off
  have hnd2' : '-' ∉ (natToString off').data := natToStringAux_no_dash (off' + 1) off'
  obtain ⟨h1, h2⟩ := append_dash_inj _ _ _ _ hnd1 hnd1' hd
  obtain ⟨h3, -⟩ := append_dash_inj _ _ _ _ hnd2 hnd2' h2
  exact ⟨natToString_inj qi qi' (String.ext h1), natToString_inj off off' (String.ext h3)⟩

/-- The index components of `enum` are pairwise distinct. -/
theorem enum_fst_pairwise_ne {α : Type} (l : List α) :
    l.enum.Pairwise (fun a b => a.1 ≠ b.1) := by
  have hnd : (l.enum.map Prod.fst).Nodup := by
    rw [List.enum_map_fst]
    exact List.nodup_range l.length
  exact (List.pairwise_map.mp hnd)

/-- C8 (amended): all ids within the deterministic fallback batch are
pairwise distinct (the query number and row offset are recoverable from the
id); ids supplied by the AI are passed through unchecked and can collide,
see the counterexample. -/
theorem c8_fallback_ids_pairwise_distinct (queries : List JobQuery) (location : Option String)
    (remote : Bool) (now : Nat) :
    (buildFallbackJobs queries location remote now).Pairwise (fun a b => a.id ≠ b.id) := by
  rw [← List.pairwise_map (f := JobPosting.id)]
  unfold buildFallbackJobs
  rw [List.map_flatMap]
  simp only [List.map_map]
  show (queries.enum.flatMap fun qi =>
      (List.range (max SEARCH_PROVIDERS.length 5)).map
        (JobPosting.id ∘ fallbackPosting location remote now qi.1 qi.2)).Nodup
  rw [List.nodup_flatMap]
  constructor
  · intro qi hqi
    refine List.Nodup.map_on ?_ (List.nodup_range _)
    intro i hi j hj hfe
    have hfe' : fallbackId qi.1 i now = fallbackId qi.1 j now := hfe
    exact (fallbackId_inj _ _ _ _ _ _ hfe').2
  · refine List.Pairwise.imp ?_ (enum_fst_pairwise_ne queries)
    intro a b hne x hx1 hx2
    rw [List.mem_map] at hx1 hx2
    obtain ⟨i, hi, hxi⟩ := hx1
    obtain ⟨j, hj, hxj⟩ := hx2
    have hids : fallbackId a.1 i now = fallbackId b.1 j now := by
      have : (JobPosting.id ∘ fallbackPosting location remote now a.1 a.2) i =
          (JobPosting.id ∘ fallbackPosting location remote now b.1 b.2) j := by
        rw [hxi, hxj]
      exact this
    exact hne (fallbackId_inj _ _ _ _ _ _ hids).1

/-- C8 counterexample: two AI postings carrying the same `id` field are both
returned verbatim, so a single response batch can hold duplicate ids. -/
theorem c8_counterexample :
    (generateJobsWithGemini "key"
        (Except.ok (some "\x7b\"jobs\":[\x7b\"id\":\"x\",\"title\":\"A\",\"company\":\"Canva\",\"link\":\"https://canva.com/a\",\"description\":\"d\",\"location\":\"L\"\x7d,\x7b\"id\":\"x\",\"title\":\"B\",\"company\":\"Stripe\",\"link\":\"https://stripe.com/b\",\"description\":\"d\",\"location\":\"L\"\x7d]\x7d"))
        [{ title := "Dev", query := "dev" }] none false 0).map
      (fun l => l.map JobPosting.id) = Except.ok ["x", "x"] ∧
    ¬((generateJobsWithGemini "key"
        (Except.ok (some "\x7b\"jobs\":[\x7b\"id\":\"x\",\"title\":\"A\",\"company\":\"Canva\",\"link\":\"https://canva.com/a\",\"description\":\"d\",\"location\":\"L\"\x7d,\x7b\"id\":\"x\",\"title\":\"B\",\"company\":\"Stripe\",\"link\":\"https://stripe.com/b\",\"description\":\"d\",\"location\":\"L\"\x7d]\x7d"))
        [{ title := "Dev", query := "dev" }] none false 0).toOption.getD []).Pairwise
      (fun a b => a.id ≠ b.id) :=
  ⟨rfl, by decide⟩

/-! ### C1: failure handling of the engine -/

/-- C1: the engine calls `getModel` *before* its `try` block, so with an
unconfigured key the configuration error propagates to the caller instead of
the fallback list — for every query list and preference.  Once a model
handle exists, a thrown AI call, a response with no parsable JSON block, and
a response whose `jobs` array is empty all degrade to the deterministic
fallback list. -/
theorem c1_unconfigured_throws_configured_falls_back :
    (∀ (aiResponse : Except Unit (Option String)) (queries : List JobQuery)
      (location : Option String) (remote : Bool) (now : Nat),
      generateJobsWithGemini "" aiResponse queries location remote now =
        Except.error "Gemini model is not configured. Provide a valid GEMINI_API_KEY.") ∧
    (∀ (queries : List JobQuery) (location : Option String) (remote : Bool) (now : Nat),
      generateJobsWithGemini "key" (Except.error ()) queries location remote now =
        Except.ok (buildFallbackJobs queries location remote now)) ∧
    (∀ (queries : List JobQuery) (location : Option String) (remote : Bool) (now : Nat),
      generateJobsWithGemini "key" (Except.ok (some "Sure! Here is \x7bnot valid json"))
          queries location remote now =
        Except.ok (buildFallbackJobs queries location remote now)) ∧
    (∀ (queries : List JobQuery) (location : Option String) (remote : Bool) (now : Nat),
      generateJobsWithGemini "key" (Except.ok (some "\x7b\"jobs\":[]\x7d")) queries location remote
          now =
        Except.ok (buildFallbackJobs queries location remote now)) :=
  ⟨fun _ _ _ _ _ => rfl, fun _ _ _ _ => rfl, fun _ _ _ _ => rfl, fun _ _ _ _ => rfl⟩
